import Mathlib

/-!
Verification of the ACP SDK core: webhook signature verification
(`Webhooks` in the SDK source) and the HTTP retry pipeline
(`FetchHttpClient.makeRequest`, `ACPError.generate`).

Strings are modelled as `List Char` (`Str`), JavaScript numbers that hold
integer values as `Int`, and millisecond delays as `ℚ` (the jitter factor
`Math.random() * 0.5 + 0.75` is a rational draw).  The HMAC-SHA256 digest
(`crypto.createHmac(...).digest('hex')`, external library code) is a
parameter `hmac : Str → Str → Str`; hex output is captured by `HexOutput`.
`JSON.parse` success (external) is a parameter `jsonOk : Str → Bool`.
-/

/-- JavaScript strings, modelled as lists of characters. -/
abbrev Str := List Char

instance {ε α : Type} [DecidableEq ε] [DecidableEq α] : DecidableEq (Except ε α) := fun
  | Except.error e, Except.error f =>
    if h : e = f then isTrue (by rw [h])
    else isFalse (by intro hc; cases hc; exact h rfl)
  | Except.error _, Except.ok _ => isFalse (by intro hc; cases hc)
  | Except.ok _, Except.error _ => isFalse (by intro hc; cases hc)
  | Except.ok a, Except.ok b =>
    if h : a = b then isTrue (by rw [h])
    else isFalse (by intro hc; cases hc; exact h rfl)

/-- `String.prototype.split(sep)` for a one-character separator:
`"".split(c) = [""]`, separators at the ends produce empty fields. -/
def splitOnChar (c : Char) : Str → List Str
  | [] => [[]]
  | x :: xs =>
    if x = c then [] :: splitOnChar c xs
    else
      match splitOnChar c xs with
      | [] => [[x]]
      | y :: ys => (x :: y) :: ys

/-- Digit value of a decimal character. -/
def charDigit (c : Char) : Nat := c.toNat - '0'.toNat

/-- Value of a list of decimal digit characters, most significant first. -/
def charsToNat (s : Str) : Nat := s.foldl (fun a c => 10 * a + charDigit c) 0

/-- The maximal leading run of decimal digits, as a number; `none` when the
run is empty (JavaScript `NaN`). -/
def leadingNat (s : Str) : Option Nat :=
  if s.takeWhile Char.isDigit = [] then none
  else some (charsToNat (s.takeWhile Char.isDigit))

/-- Whitespace characters stripped by JavaScript `parseInt`. -/
def isJsSpace (c : Char) : Bool :=
  c = ' ' ∨ c = '\t' ∨ c = '\n' ∨ c = '\r'

/-- JavaScript `parseInt(s, 10)`: skip leading whitespace, optional sign,
maximal digit run; `none` models `NaN`. -/
def parseIntJS (s : Str) : Option Int :=
  if (s.dropWhile isJsSpace).headD ' ' = '-' then
    (leadingNat (s.dropWhile isJsSpace).tail).map (fun n => -(Int.ofNat n))
  else if (s.dropWhile isJsSpace).headD ' ' = '+' then
    (leadingNat (s.dropWhile isJsSpace).tail).map Int.ofNat
  else (leadingNat (s.dropWhile isJsSpace)).map Int.ofNat

/-- Decimal digit character for a digit value. -/
def digitChar (d : Nat) : Char := Char.ofNat ('0'.toNat + d)

/-- Decimal rendering of a natural number (JavaScript `Number.toString`
restricted to non-negative integers). -/
def natToChars (n : Nat) : Str :=
  if n = 0 then ['0'] else (Nat.digits 10 n).reverse.map digitChar

/-- Decimal rendering of an integer (JavaScript template interpolation of
an integral number). -/
def intToChars (i : Int) : Str :=
  if i < 0 then '-' :: natToChars i.natAbs else natToChars i.toNat

/-- UTF-8 byte length of a string (`Buffer.from(s).length`). -/
def utf8Len (s : Str) : Nat := s.foldl (fun n c => n + c.utf8Size) 0

/-- Hexadecimal digit characters, the alphabet of `digest('hex')`. -/
def isHexChar (c : Char) : Bool :=
  c.isDigit ∨ ('a' ≤ c ∧ c ≤ 'f') ∨ ('A' ≤ c ∧ c ≤ 'F')

/-- The HMAC model produces only hexadecimal characters, as
`crypto.createHmac('sha256', secret).update(m).digest('hex')` does. -/
def HexOutput (hmac : Str → Str → Str) : Prop :=
  ∀ secret msg c, c ∈ hmac secret msg → isHexChar c = true

namespace Webhooks

/-- The failure cases of `Webhooks`: each `throw new
ACPSignatureVerificationError(...)` site, distinguished by its message. -/
inductive VerifyError where
  | noHeader
  | noTimestamp
  | noSignature
  | stale
  | sigMismatch
  | payloadDecode
deriving DecidableEq

/-- Parsed representation of the `ACP-Signature` header
(`interface WebhookHeader`).  A `v1=` field with no `=` contributes an
absent (`undefined`) entry. -/
structure WebhookHeader where
  timestamp : Int
  signatures : List (Option Str)
deriving DecidableEq

/-- `Webhooks.computeSignature`: hex HMAC-SHA256 of
`"{timestamp}.{payload}"` keyed by the secret. -/
def computeSignature (hmac : Str → Str → Str) (timestamp : Int)
    (payload secret : Str) : Str :=
  hmac secret (intToChars timestamp ++ '.' :: payload)

/-- `crypto.timingSafeEqual(Buffer.from(a), Buffer.from(b))`: throws when
the byte lengths differ, otherwise compares the byte sequences (equal
UTF-8 byte sequences coincide with equal strings). -/
def timingSafeEqual (a b : Str) : Except Unit Bool :=
  if utf8Len a = utf8Len b then Except.ok (a == b) else Except.error ()

/-- `Webhooks.secureCompare`: the `timingSafeEqual` call wrapped in
`try { ... } catch { return false }`. -/
def secureCompare (a b : Str) : Bool :=
  match timingSafeEqual a b with
  | Except.ok r => r
  | Except.error _ => false

/-- `secureCompare(sig, expected)` where `sig` may be `undefined`
(`Buffer.from(undefined)` throws, the catch returns `false`). -/
def optSecureCompare (s : Option Str) (expected : Str) : Bool :=
  match s with
  | some s => secureCompare s expected
  | none => false

/-- One step of the `for (const part of parts)` loop in
`Webhooks.parseHeader`: state is (timestamp as `Option Int` where `none`
models `NaN`, collected `v1` values). -/
def headerStep (acc : Option Int × List (Option Str)) (part : Str) :
    Option Int × List (Option Str) :=
  let kv := splitOnChar '=' part
  let key := kv.headD []
  let value := kv.get? 1
  if key = ['t'] then (value.bind parseIntJS, acc.2)
  else if key = ['v', '1'] then (acc.1, acc.2 ++ [value])
  else acc

/-- `Webhooks.parseHeader`: split on commas, fold `headerStep` from
`(0, [])`, reject a missing/`NaN`/zero timestamp and an empty signature
list. -/
def parseHeader (header : Str) : Except VerifyError WebhookHeader :=
  if header = [] then Except.error VerifyError.noHeader
  else
    match (splitOnChar ',' header).foldl headerStep (some 0, []) with
    | (none, _) => Except.error VerifyError.noTimestamp
    | (some t, sigs) =>
      if t = 0 then Except.error VerifyError.noTimestamp
      else if sigs = [] then Except.error VerifyError.noSignature
      else Except.ok ⟨t, sigs⟩

/-- `Webhooks.constructEvent`: parse the header, enforce the freshness
window, compare signatures, then decode the payload.  `now` is
`Math.floor(Date.now() / 1000)`; the event is modelled by the payload
string that `JSON.parse` accepted. -/
def constructEvent (hmac : Str → Str → Str) (jsonOk : Str → Bool)
    (payload signature secret : Str) (tolerance now : Int) :
    Except VerifyError Str :=
  match parseHeader signature with
  | Except.error e => Except.error e
  | Except.ok h =>
    if now - h.timestamp > tolerance then Except.error VerifyError.stale
    else
      let expected := computeSignature hmac h.timestamp payload secret
      if h.signatures.any (fun s => optSecureCompare s expected) then
        if jsonOk payload then Except.ok payload
        else Except.error VerifyError.payloadDecode
      else Except.error VerifyError.sigMismatch

/-- `Webhooks.verifySignature`: the same parse / freshness / match stages
inside `try { ... } catch { return false }`. -/
def verifySignature (hmac : Str → Str → Str)
    (payload signature secret : Str) (tolerance now : Int) : Bool :=
  match parseHeader signature with
  | Except.error _ => false
  | Except.ok h =>
    if now - h.timestamp > tolerance then false
    else
      h.signatures.any (fun s =>
        optSecureCompare s (computeSignature hmac h.timestamp payload secret))

/-- `Webhooks.generateTestHeaderString` with an explicit timestamp:
`t={timestamp},v1={signature}`. -/
def generateTestHeaderString (hmac : Str → Str → Str)
    (payload secret : Str) (timestamp : Int) : Str :=
  't' :: '=' :: intToChars timestamp ++
    ',' :: 'v' :: '1' :: '=' :: computeSignature hmac timestamp payload secret

end Webhooks

namespace FetchHttpClient

/-- What one `fetch` attempt yields: an HTTP response with status,
optional `Retry-After` header and decoded JSON body; an `AbortError`
(timeout); or another rejection (network error) with its message. -/
inductive FetchResult where
  | response (status : Nat) (retryAfter : Option Str) (body : Str)
  | abortError
  | netError (msg : Str)

/-- The distinguishable error classes raised by `makeRequest`, following
the `ACPError` subclasses in `Error.ts` (messages elided except the one
`makeRequest` formats itself). -/
inductive ReqErr where
  | invalidRequest (status : Nat)
  | authenticationE
  | permissionE
  | notFoundE
  | rateLimitE
  | apiError (status : Nat)
  | connTimeout
  | connFailed (lastMsg : Str)
deriving DecidableEq

/-- `ACPError.generate`: status code to error class. -/
def generateErr (status : Nat) : ReqErr :=
  if status = 400 then ReqErr.invalidRequest status
  else if status = 401 then ReqErr.authenticationE
  else if status = 403 then ReqErr.permissionE
  else if status = 404 then ReqErr.notFoundE
  else if status = 429 then ReqErr.rateLimitE
  else if 400 ≤ status ∧ status < 500 then ReqErr.invalidRequest status
  else ReqErr.apiError status

/-- Whether an error is an `ACPConnectionError` (the class used both for
the timeout throw and the loop-exhaustion throw). -/
def ReqErr.isConnectionErr : ReqErr → Bool
  | ReqErr.connTimeout => true
  | ReqErr.connFailed _ => true
  | _ => false

/-- The request identifier and idempotency key headers sent on one
physical attempt (`X-Request-Id` is reassigned each iteration,
`Idempotency-Key` is set once before the loop). -/
structure AttemptRecord where
  reqId : Str
  idem : Option Str
deriving DecidableEq

/-- `parseInt(response.headers.get('Retry-After') || '1', 10)`: a missing
header (`null`) and an empty header are both falsy and default to `'1'`. -/
def retryAfterSecs (ra : Option Str) : Option Int :=
  match ra with
  | none => some 1
  | some s => if s = [] then some 1 else parseIntJS s

/-- The argument of `sleep(retryAfter * 1000)`; `NaN` reaches `setTimeout`
as a zero delay. -/
def retryAfterMs (ra : Option Str) : ℚ :=
  match retryAfterSecs ra with
  | some n => (n : ℚ) * 1000
  | none => 0

/-- `FetchHttpClient.getBackoffMs`: `min(2^attempt * 500 * (rand * 0.5 +
0.75), 30000)` where `rand` is the `Math.random()` draw for this call. -/
def getBackoffMs (attempt : Nat) (rand : ℚ) : ℚ :=
  min ((2 ^ attempt * 500) * (rand * (1 / 2) + 3 / 4)) 30000

/-- The retry loop of `makeRequest` from a given attempt index.  `resp`
gives each attempt's outcome, `jit` the `Math.random()` draw consumed by
a backoff at that attempt, `genId` the value of `generateRequestId()` at
that attempt.  `budget` is the remaining retry budget `maxRetries -
attempt`, so `budget > 0` is the source's `attempt < maxRetries`.
Returns the per-attempt headers sent, the sleeps performed (ms), and the
terminal outcome. -/
def runFrom (resp : Nat → FetchResult) (jit : Nat → ℚ) (genId : Nat → Str)
    (idem : Option Str) : Nat → Nat →
    List AttemptRecord × List ℚ × Except ReqErr Str
  | attempt, 0 =>
    match resp attempt with
    | FetchResult.response st _ra _body =>
      if 200 ≤ st ∧ st < 300 then ([⟨genId attempt, idem⟩], [], Except.ok _body)
      else if 400 ≤ st ∧ st < 500 ∧ st ≠ 429 then
        ([⟨genId attempt, idem⟩], [], Except.error (generateErr st))
      else if st = 429 then
        ([⟨genId attempt, idem⟩], [], Except.error ReqErr.rateLimitE)
      else ([⟨genId attempt, idem⟩], [], Except.error (generateErr st))
    | FetchResult.abortError =>
      ([⟨genId attempt, idem⟩], [], Except.error ReqErr.connTimeout)
    | FetchResult.netError m =>
      ([⟨genId attempt, idem⟩], [],
        Except.error (ReqErr.connFailed (if m = [] then [] else m)))
  | attempt, b + 1 =>
    match resp attempt with
    | FetchResult.response st ra _body =>
      if 200 ≤ st ∧ st < 300 then ([⟨genId attempt, idem⟩], [], Except.ok _body)
      else if 400 ≤ st ∧ st < 500 ∧ st ≠ 429 then
        ([⟨genId attempt, idem⟩], [], Except.error (generateErr st))
      else if st = 429 then
        (⟨genId attempt, idem⟩ :: (runFrom resp jit genId idem (attempt + 1) b).1,
         retryAfterMs ra :: (runFrom resp jit genId idem (attempt + 1) b).2.1,
         (runFrom resp jit genId idem (attempt + 1) b).2.2)
      else
        (⟨genId attempt, idem⟩ :: (runFrom resp jit genId idem (attempt + 1) b).1,
         getBackoffMs attempt (jit attempt) ::
           (runFrom resp jit genId idem (attempt + 1) b).2.1,
         (runFrom resp jit genId idem (attempt + 1) b).2.2)
    | FetchResult.abortError =>
      (⟨genId attempt, idem⟩ :: (runFrom resp jit genId idem (attempt + 1) b).1,
       getBackoffMs attempt (jit attempt) ::
         (runFrom resp jit genId idem (attempt + 1) b).2.1,
       (runFrom resp jit genId idem (attempt + 1) b).2.2)
    | FetchResult.netError _m =>
      (⟨genId attempt, idem⟩ :: (runFrom resp jit genId idem (attempt + 1) b).1,
       getBackoffMs attempt (jit attempt) ::
         (runFrom resp jit genId idem (attempt + 1) b).2.1,
       (runFrom resp jit genId idem (attempt + 1) b).2.2)

/-- `FetchHttpClient.makeRequest`: the loop started at attempt 0 with the
full retry budget. -/
def makeRequest (resp : Nat → FetchResult) (jit : Nat → ℚ)
    (genId : Nat → Str) (idem : Option Str) (maxRetries : Nat) :
    List AttemptRecord × List ℚ × Except ReqErr Str :=
  runFrom resp jit genId idem 0 maxRetries

end FetchHttpClient

/-! ### Concrete instances used to exercise the model -/

/-- An HMAC stand-in with constant hex output, for concrete evaluations. -/
def hmacAB : Str → Str → Str := fun _ _ => ['a', 'b']

/-- A payload decoder stand-in that accepts everything. -/
def jsonOkAll : Str → Bool := fun _ => true

/-- Every attempt sees a 503 response. -/
def resp503All : Nat → FetchHttpClient.FetchResult :=
  fun _ => FetchHttpClient.FetchResult.response 503 none []

/-- Every attempt sees a plain 400 response. -/
def resp400All : Nat → FetchHttpClient.FetchResult :=
  fun _ => FetchHttpClient.FetchResult.response 400 none []

/-- Every attempt sees a 429 response with header value 2. -/
def resp429All : Nat → FetchHttpClient.FetchResult :=
  fun _ => FetchHttpClient.FetchResult.response 429 (some ['2']) []

/-- A zero jitter draw for every attempt. -/
def jitZero : Nat → ℚ := fun _ => 0

/-- A request-identifier generator returning the attempt number in
decimal. -/
def genIdNum : Nat → Str := fun n => natToChars n

/-! ### Lemmas on the string primitives -/

theorem splitOnChar_of_not_mem {c : Char} {l : Str} (h : c ∉ l) :
    splitOnChar c l = [l] := by
  induction l with
  | nil => rfl
  | cons x xs ih =>
    have hx : ¬ x = c := fun hc => h (hc ▸ List.mem_cons_self x xs)
    have hxs : c ∉ xs := fun hc => h (List.mem_cons_of_mem _ hc)
    simp [splitOnChar, hx, ih hxs]

theorem splitOnChar_append {c : Char} {a b : Str} (h : c ∉ a) :
    splitOnChar c (a ++ c :: b) = a :: splitOnChar c b := by
  induction a with
  | nil => simp [splitOnChar]
  | cons x xs ih =>
    have hx : ¬ x = c := fun hc => h (hc ▸ List.mem_cons_self x xs)
    have hxs : c ∉ xs := fun hc => h (List.mem_cons_of_mem _ hc)
    simp [splitOnChar, hx, ih hxs]

theorem digitChar_isDigit {d : Nat} (hd : d < 10) :
    (digitChar d).isDigit = true := by
  interval_cases d <;> decide

theorem charDigit_digitChar {d : Nat} (hd : d < 10) :
    charDigit (digitChar d) = d := by
  interval_cases d <;> decide

theorem charsToNat_append_singleton (xs : Str) (y : Char) :
    charsToNat (xs ++ [y]) = 10 * charsToNat xs + charDigit y := by
  simp [charsToNat, List.foldl_append]

theorem charsToNat_render (L : List Nat) (hL : ∀ d ∈ L, d < 10) :
    charsToNat (L.reverse.map digitChar) = Nat.ofDigits 10 L := by
  induction L with
  | nil => simp [charsToNat, Nat.ofDigits_nil]
  | cons d L ih =>
    rw [List.reverse_cons, List.map_append, List.map_singleton,
      charsToNat_append_singleton,
      ih (fun x hx => hL x (List.mem_cons_of_mem _ hx)),
      charDigit_digitChar (hL d (List.mem_cons_self d L)), Nat.ofDigits_cons]
    ring

theorem natToChars_mem_isDigit {n : Nat} {c : Char} (hc : c ∈ natToChars n) :
    c.isDigit = true := by
  unfold natToChars at hc
  split at hc
  · rcases List.mem_singleton.mp hc with rfl
    decide
  · obtain ⟨d, hd, rfl⟩ := List.mem_map.mp hc
    exact digitChar_isDigit
      (Nat.digits_lt_base (by norm_num) (List.mem_reverse.mp hd))

theorem charsToNat_natToChars (n : Nat) : charsToNat (natToChars n) = n := by
  unfold natToChars
  split
  · rename_i h
    rw [h]
    decide
  · rw [charsToNat_render _ (fun d hd => Nat.digits_lt_base (by norm_num) hd),
      Nat.ofDigits_digits]

theorem natToChars_ne_nil (n : Nat) : natToChars n ≠ [] := by
  unfold natToChars
  split
  · simp
  · rename_i h
    intro hnil
    rw [List.map_eq_nil_iff, List.reverse_eq_nil_iff] at hnil
    exact Nat.digits_ne_nil_iff_ne_zero.mpr h hnil

theorem leadingNat_natToChars (n : Nat) : leadingNat (natToChars n) = some n := by
  unfold leadingNat
  rw [List.takeWhile_eq_self_iff.mpr (fun c hc => natToChars_mem_isDigit hc)]
  rw [if_neg (natToChars_ne_nil n), charsToNat_natToChars]

theorem isDigit_not_space {c : Char} (h : c.isDigit = true) :
    isJsSpace c = false := by
  by_contra hb
  rw [Bool.not_eq_false] at hb
  rcases (by simpa [isJsSpace] using hb : c = ' ' ∨ c = '\t' ∨ c = '\n' ∨ c = '\r')
    with h1 | h1 | h1 | h1 <;> subst h1 <;> exact absurd h (by decide)

theorem dropWhile_head_false {p : Char → Bool} {x : Char} {xs : Str}
    (h : p x = false) : List.dropWhile p (x :: xs) = x :: xs := by
  simp [List.dropWhile, h]

theorem parseIntJS_intToChars (i : Int) : parseIntJS (intToChars i) = some i := by
  unfold intToChars
  split
  · rename_i h
    unfold parseIntJS
    rw [dropWhile_head_false (by decide)]
    simp only [List.headD_cons, if_pos rfl, List.tail_cons,
      leadingNat_natToChars, Option.map_some]
    refine congrArg some ?_
    show -((i.natAbs : Int)) = i
    omega
  · rename_i h
    rcases hr : natToChars i.toNat with _ | ⟨c, r⟩
    · exact absurd hr (natToChars_ne_nil _)
    · have hcd : c.isDigit = true :=
        natToChars_mem_isDigit (hr ▸ List.mem_cons_self c r)
      have hcm : ¬ c = '-' := fun hc => absurd hcd (by rw [hc]; decide)
      have hcp : ¬ c = '+' := fun hc => absurd hcd (by rw [hc]; decide)
      unfold parseIntJS
      rw [dropWhile_head_false (isDigit_not_space hcd)]
      simp only [List.headD_cons, if_neg hcm, if_neg hcp]
      rw [← hr, leadingNat_natToChars]
      show some ((i.toNat : Int)) = some i
      refine congrArg some ?_
      omega

theorem intToChars_mem {i : Int} {c : Char} (hc : c ∈ intToChars i) :
    c = '-' ∨ c.isDigit = true := by
  unfold intToChars at hc
  split at hc
  · rcases List.mem_cons.mp hc with rfl | h
    · exact Or.inl rfl
    · exact Or.inr (natToChars_mem_isDigit h)
  · exact Or.inr (natToChars_mem_isDigit hc)

theorem comma_not_mem_intToChars (i : Int) : ',' ∉ intToChars i := by
  intro h
  rcases intToChars_mem h with h1 | h1
  · exact absurd h1 (by decide)
  · exact absurd h1 (by decide)

theorem eqsign_not_mem_intToChars (i : Int) : '=' ∉ intToChars i := by
  intro h
  rcases intToChars_mem h with h1 | h1
  · exact absurd h1 (by decide)
  · exact absurd h1 (by decide)

theorem hexOutput_not_comma {hmac : Str → Str → Str} (hhex : HexOutput hmac)
    (s m : Str) : ',' ∉ hmac s m :=
  fun h => absurd (hhex s m ',' h) (by decide)

theorem hexOutput_not_eqsign {hmac : Str → Str → Str} (hhex : HexOutput hmac)
    (s m : Str) : '=' ∉ hmac s m :=
  fun h => absurd (hhex s m '=' h) (by decide)

/-! ### Lemmas on the webhook verifier -/

namespace Webhooks

theorem secureCompare_self (s : Str) : secureCompare s s = true := by
  simp [secureCompare, timingSafeEqual]

theorem secureCompare_eq_true_iff {a b : Str} :
    secureCompare a b = true ↔ a = b := by
  unfold secureCompare timingSafeEqual
  by_cases hlen : utf8Len a = utf8Len b
  · rw [if_pos hlen]
    show (a == b) = true ↔ a = b
    exact beq_iff_eq
  · rw [if_neg hlen]
    show false = true ↔ a = b
    constructor
    · intro h
      exact absurd h (by decide)
    · intro h
      exact absurd (congrArg utf8Len h) hlen

theorem headerStep_t (acc : Option Int × List (Option Str)) {v : Str}
    (hv : '=' ∉ v) :
    headerStep acc ('t' :: '=' :: v) = (parseIntJS v, acc.2) := by
  have hsplit : splitOnChar '=' ('t' :: '=' :: v) = [['t'], v] := by
    have : 't' :: '=' :: v = ['t'] ++ '=' :: v := rfl
    rw [this, splitOnChar_append (by decide), splitOnChar_of_not_mem hv]
  simp [headerStep, hsplit]

theorem headerStep_v1 (acc : Option Int × List (Option Str)) {v : Str}
    (hv : '=' ∉ v) :
    headerStep acc ('v' :: '1' :: '=' :: v) = (acc.1, acc.2 ++ [some v]) := by
  have hsplit : splitOnChar '=' ('v' :: '1' :: '=' :: v) = [['v', '1'], v] := by
    have : 'v' :: '1' :: '=' :: v = ['v', '1'] ++ '=' :: v := rfl
    rw [this, splitOnChar_append (by decide), splitOnChar_of_not_mem hv]
  simp [headerStep, hsplit]

/-- Parsing a header produced by the test generator recovers the timestamp
and the single generated signature, provided the timestamp is nonzero. -/
theorem parseHeader_generate {hmac : Str → Str → Str} (hhex : HexOutput hmac)
    (payload secret : Str) (ts : Int) (hts : ts ≠ 0) :
    parseHeader (generateTestHeaderString hmac payload secret ts) =
      Except.ok ⟨ts, [some (computeSignature hmac ts payload secret)]⟩ := by
  have hsigc : ',' ∉ computeSignature hmac ts payload secret :=
    hexOutput_not_comma hhex secret _
  have hsige : '=' ∉ computeSignature hmac ts payload secret :=
    hexOutput_not_eqsign hhex secret _
  have hsplit : splitOnChar ',' (generateTestHeaderString hmac payload secret ts)
      = [('t' :: '=' :: intToChars ts),
         ('v' :: '1' :: '=' :: computeSignature hmac ts payload secret)] := by
    have hshape : generateTestHeaderString hmac payload secret ts =
        ('t' :: '=' :: intToChars ts) ++
          ',' :: ('v' :: '1' :: '=' :: computeSignature hmac ts payload secret) := by
      simp [generateTestHeaderString]
    rw [hshape, splitOnChar_append, splitOnChar_of_not_mem]
    · intro hm
      rcases List.mem_cons.mp hm with h1 | hm
      · exact absurd h1 (by decide)
      rcases List.mem_cons.mp hm with h1 | hm
      · exact absurd h1 (by decide)
      rcases List.mem_cons.mp hm with h1 | hm
      · exact absurd h1 (by decide)
      exact hsigc hm
    · intro hm
      rcases List.mem_cons.mp hm with h1 | hm
      · exact absurd h1 (by decide)
      rcases List.mem_cons.mp hm with h1 | hm
      · exact absurd h1 (by decide)
      exact comma_not_mem_intToChars ts hm
  unfold parseHeader
  rw [if_neg (by simp [generateTestHeaderString]), hsplit]
  simp only [List.foldl_cons, List.foldl_nil,
    headerStep_t _ (eqsign_not_mem_intToChars ts), headerStep_v1 _ hsige,
    parseIntJS_intToChars]
  simp [hts]

/-- The error constructors that `parseHeader` can produce. -/
theorem parseHeader_error_cases {s : Str} {e : VerifyError}
    (hp : parseHeader s = Except.error e) :
    e = VerifyError.noHeader ∨ e = VerifyError.noTimestamp ∨
      e = VerifyError.noSignature := by
  unfold parseHeader at hp
  by_cases h0 : s = []
  · rw [if_pos h0] at hp
    cases hp
    exact Or.inl rfl
  · rw [if_neg h0] at hp
    rcases hst : (splitOnChar ',' s).foldl headerStep (some 0, []) with ⟨_ | t, sigs⟩
    · rw [hst] at hp
      cases hp
      exact Or.inr (Or.inl rfl)
    · rw [hst] at hp
      have hp' : (if t = 0 then Except.error VerifyError.noTimestamp
          else if sigs = [] then
            (Except.error VerifyError.noSignature : Except VerifyError WebhookHeader)
          else Except.ok ⟨t, sigs⟩) = Except.error e := hp
      by_cases ht : t = 0
      · rw [if_pos ht] at hp'
        cases hp'
        exact Or.inr (Or.inl rfl)
      · rw [if_neg ht] at hp'
        by_cases hsg : sigs = []
        · rw [if_pos hsg] at hp'
          cases hp'
          exact Or.inr (Or.inr rfl)
        · rw [if_neg hsg] at hp'
          cases hp'

/-- Shape of `verifySignature` once the header parses. -/
theorem verifySignature_parse_ok {hmac : Str → Str → Str}
    {payload signature secret : Str} {tolerance now : Int} {h : WebhookHeader}
    (hp : parseHeader signature = Except.ok h) :
    verifySignature hmac payload signature secret tolerance now =
      if now - h.timestamp > tolerance then false
      else
        h.signatures.any (fun s =>
          optSecureCompare s
            (computeSignature hmac h.timestamp payload secret)) := by
  unfold verifySignature
  rw [hp]

/-- Shape of `verifySignature` when the header does not parse. -/
theorem verifySignature_parse_error {hmac : Str → Str → Str}
    {payload signature secret : Str} {tolerance now : Int} {e : VerifyError}
    (hp : parseHeader signature = Except.error e) :
    verifySignature hmac payload signature secret tolerance now = false := by
  unfold verifySignature
  rw [hp]

/-- Shape of `constructEvent` once the header parses. -/
theorem constructEvent_parse_ok {hmac : Str → Str → Str} {jsonOk : Str → Bool}
    {payload signature secret : Str} {tolerance now : Int} {h : WebhookHeader}
    (hp : parseHeader signature = Except.ok h) :
    constructEvent hmac jsonOk payload signature secret tolerance now =
      if now - h.timestamp > tolerance then Except.error VerifyError.stale
      else if h.signatures.any (fun s =>
          optSecureCompare s
            (computeSignature hmac h.timestamp payload secret)) then
        (if jsonOk payload then Except.ok payload
         else Except.error VerifyError.payloadDecode)
      else Except.error VerifyError.sigMismatch := by
  unfold constructEvent
  rw [hp]

/-- Shape of `constructEvent` when the header does not parse. -/
theorem constructEvent_parse_error {hmac : Str → Str → Str}
    {jsonOk : Str → Bool} {payload signature secret : Str} {tolerance now : Int}
    {e : VerifyError} (hp : parseHeader signature = Except.error e) :
    constructEvent hmac jsonOk payload signature secret tolerance now =
      Except.error e := by
  unfold constructEvent
  rw [hp]

end Webhooks

/-! ### Lemmas on the request pipeline -/

namespace FetchHttpClient

/-- A non-2xx, non-429 response outside `[400, 500)` (in the claims: a
5xx) retries when budget remains. -/
theorem runFrom_other_retry {resp : Nat → FetchResult} {jit : Nat → ℚ}
    {genId : Nat → Str} {idem : Option Str} {attempt b st : Nat}
    {ra : Option Str} {body : Str}
    (hresp : resp attempt = FetchResult.response st ra body)
    (hno2 : ¬(200 ≤ st ∧ st < 300)) (hno4 : ¬(400 ≤ st ∧ st < 500 ∧ st ≠ 429))
    (hn429 : st ≠ 429) :
    runFrom resp jit genId idem attempt (b + 1) =
      (⟨genId attempt, idem⟩ :: (runFrom resp jit genId idem (attempt + 1) b).1,
       getBackoffMs attempt (jit attempt) ::
         (runFrom resp jit genId idem (attempt + 1) b).2.1,
       (runFrom resp jit genId idem (attempt + 1) b).2.2) := by
  simp only [runFrom, hresp]
  rw [if_neg hno2, if_neg hno4, if_neg hn429]

/-- A non-2xx, non-429 response outside `[400, 500)` with no budget left
is terminal with the classified error. -/
theorem runFrom_other_exhaust {resp : Nat → FetchResult} {jit : Nat → ℚ}
    {genId : Nat → Str} {idem : Option Str} {attempt st : Nat}
    {ra : Option Str} {body : Str}
    (hresp : resp attempt = FetchResult.response st ra body)
    (hno2 : ¬(200 ≤ st ∧ st < 300)) (hno4 : ¬(400 ≤ st ∧ st < 500 ∧ st ≠ 429))
    (hn429 : st ≠ 429) :
    runFrom resp jit genId idem attempt 0 =
      ([⟨genId attempt, idem⟩], [], Except.error (generateErr st)) := by
  simp only [runFrom, hresp]
  rw [if_neg hno2, if_neg hno4, if_neg hn429]

/-- Every terminated run visits the consecutive attempt indices starting
at the initial one, sending the caller's idempotency key and that
attempt's generated request identifier. -/
theorem runFrom_records (resp : Nat → FetchResult) (jit : Nat → ℚ)
    (genId : Nat → Str) (idem : Option Str) :
    ∀ budget attempt, ∃ n, 0 < n ∧
      (runFrom resp jit genId idem attempt budget).1 =
        (List.range' attempt n).map
          (fun k => (⟨genId k, idem⟩ : AttemptRecord)) := by
  intro budget
  induction budget with
  | zero =>
    intro attempt
    refine ⟨1, one_pos, ?_⟩
    rcases h : resp attempt with ⟨st, ra, body⟩ | _ | m
    · simp only [runFrom, h]
      split_ifs <;> simp [List.range'_one]
    · simp [runFrom, h, List.range'_one]
    · simp [runFrom, h, List.range'_one]
  | succ b ih =>
    intro attempt
    obtain ⟨n, hn, hrec⟩ := ih (attempt + 1)
    have hstep : (List.range' attempt (n + 1)).map
        (fun k => (⟨genId k, idem⟩ : AttemptRecord)) =
        ⟨genId attempt, idem⟩ :: (List.range' (attempt + 1) n).map
          (fun k => (⟨genId k, idem⟩ : AttemptRecord)) := by
      rw [List.range'_succ attempt n 1]
      rfl
    rcases h : resp attempt with ⟨st, ra, body⟩ | _ | m
    · simp only [runFrom, h]
      by_cases c1 : 200 ≤ st ∧ st < 300
      · rw [if_pos c1]
        exact ⟨1, one_pos, by simp [List.range'_one]⟩
      · rw [if_neg c1]
        by_cases c2 : 400 ≤ st ∧ st < 500 ∧ st ≠ 429
        · rw [if_pos c2]
          exact ⟨1, one_pos, by simp [List.range'_one]⟩
        · rw [if_neg c2]
          by_cases c3 : st = 429
          · rw [if_pos c3]
            exact ⟨n + 1, by omega, by rw [hstep, hrec]⟩
          · rw [if_neg c3]
            exact ⟨n + 1, by omega, by rw [hstep, hrec]⟩
    · refine ⟨n + 1, by omega, ?_⟩
      simp only [runFrom, h]
      rw [hstep, hrec]
    · refine ⟨n + 1, by omega, ?_⟩
      simp only [runFrom, h]
      rw [hstep, hrec]

end FetchHttpClient

theorem genIdNum_injective : Function.Injective genIdNum := by
  intro a b h
  have h2 := congrArg charsToNat h
  simp only [genIdNum, charsToNat_natToChars] at h2
  exact h2

theorem hmacAB_hex : HexOutput hmacAB := by
  intro s m c hc
  simp [hmacAB] at hc
  rcases hc with rfl | rfl <;> decide

/-! ### The claims -/

/-- C1, counterexample: with timestamp 0 the generated header reads
`t=0,v1=...`, the parser treats the zero timestamp as missing, and
verification returns `false` although the age `0 - 0 = 0` is within
tolerance `0`. -/
theorem C1_counterexample :
    (0 : Int) - (0 : Int) ≤ (0 : Int) ∧
    Webhooks.verifySignature hmacAB ['p']
      (Webhooks.generateTestHeaderString hmacAB ['p'] ['s'] 0) ['s'] 0 0 =
      false :=
  ⟨by decide, by decide⟩

/-- C1 (amended): for every payload, secret, and **nonzero** timestamp
whose age `now - timestamp` is at most the tolerance, verifying the
payload against the header produced by `generateTestHeaderString` with the
same secret and tolerance returns `true`. -/
theorem C1_prop {hmac : Str → Str → Str} (hhex : HexOutput hmac)
    (payload secret : Str) (ts now tolerance : Int) (hts : ts ≠ 0)
    (hage : now - ts ≤ tolerance) :
    Webhooks.verifySignature hmac payload
      (Webhooks.generateTestHeaderString hmac payload secret ts) secret
      tolerance now = true := by
  rw [Webhooks.verifySignature_parse_ok
    (Webhooks.parseHeader_generate hhex payload secret ts hts)]
  have hcond : ¬ (now - (Webhooks.WebhookHeader.mk ts
      [some (Webhooks.computeSignature hmac ts payload secret)]).timestamp >
        tolerance) := by
    show ¬ (now - ts > tolerance)
    omega
  rw [if_neg hcond]
  simp [Webhooks.optSecureCompare, Webhooks.secureCompare_self]

/-- C1, witness for the amended theorem at timestamp 5, now 6,
tolerance 300. -/
theorem C1_witness :
    (5 : Int) ≠ 0 ∧ (6 : Int) - 5 ≤ 300 ∧
    Webhooks.verifySignature hmacAB ['p']
      (Webhooks.generateTestHeaderString hmacAB ['p'] ['s'] 5) ['s'] 300 6 =
      true :=
  ⟨by decide, by decide,
    C1_prop hmacAB_hex ['p'] ['s'] 5 6 300 (by decide) (by decide)⟩

/-- C2: whenever the parsed header timestamp is older than
`now - tolerance`, `constructEvent` yields the staleness error and
`verifySignature` returns `false` — the stale outcome, not the signature
mismatch one, so no signature comparison decides the result, even when a
header signature matches. -/
theorem C2_prop (hmac : Str → Str → Str) (jsonOk : Str → Bool)
    (payload signature secret : Str) (tolerance now : Int)
    (h : Webhooks.WebhookHeader)
    (hp : Webhooks.parseHeader signature = Except.ok h)
    (hstale : now - h.timestamp > tolerance) :
    Webhooks.constructEvent hmac jsonOk payload signature secret tolerance now
        = Except.error Webhooks.VerifyError.stale ∧
    Webhooks.verifySignature hmac payload signature secret tolerance now =
      false := by
  rw [Webhooks.constructEvent_parse_ok hp, Webhooks.verifySignature_parse_ok hp,
    if_pos hstale, if_pos hstale]
  exact ⟨rfl, rfl⟩

/-- C2, witness: a header whose signature matches (`hmacAB` returns the
constant digest `ab`) but whose timestamp 1 is 499 seconds old with
tolerance 0. -/
theorem C2_witness :
    Webhooks.constructEvent hmacAB jsonOkAll ['p']
        ['t', '=', '1', ',', 'v', '1', '=', 'a', 'b'] ['s'] 0 500 =
      Except.error Webhooks.VerifyError.stale ∧
    Webhooks.verifySignature hmacAB ['p']
        ['t', '=', '1', ',', 'v', '1', '=', 'a', 'b'] ['s'] 0 500 = false :=
  C2_prop hmacAB jsonOkAll ['p'] _ ['s'] 0 500 ⟨1, [some ['a', 'b']]⟩
    (by decide) (by decide)

/-- C6: for every attempt index and every jitter draw from `[0, 1)`, the
jitter factor lands in `[0.75, 1.25]` and the computed backoff equals
`min(500·2^attempt·jitter, 30000)` milliseconds. -/
theorem C6_prop (attempt : Nat) (rand : ℚ) (h0 : 0 ≤ rand)
    (h1 : rand < 1) :
    (3 / 4 ≤ rand * (1 / 2) + 3 / 4 ∧ rand * (1 / 2) + 3 / 4 ≤ 5 / 4) ∧
    FetchHttpClient.getBackoffMs attempt rand =
      min (500 * 2 ^ attempt * (rand * (1 / 2) + 3 / 4)) 30000 := by
  refine ⟨⟨by linarith, by linarith⟩, ?_⟩
  unfold FetchHttpClient.getBackoffMs
  congr 1
  ring

/-- C6, witness at attempt 0 and jitter draw 0. -/
theorem C6_witness :
    (3 / 4 ≤ (0 : ℚ) * (1 / 2) + 3 / 4 ∧ (0 : ℚ) * (1 / 2) + 3 / 4 ≤ 5 / 4) ∧
    FetchHttpClient.getBackoffMs 0 0 =
      min (500 * 2 ^ 0 * ((0 : ℚ) * (1 / 2) + 3 / 4)) 30000 :=
  C6_prop 0 0 (le_refl 0) (by norm_num)

/-- C7: `secureCompare` is total — in particular, when the inner
`timingSafeEqual` faults (as it does whenever the byte lengths differ) the
catch turns the fault into `false`. -/
theorem C7_prop (a b : Str) :
    ((Webhooks.timingSafeEqual a b).isOk = false →
      Webhooks.secureCompare a b = false) ∧
    (utf8Len a ≠ utf8Len b → Webhooks.secureCompare a b = false) := by
  by_cases hlen : utf8Len a = utf8Len b
  · have hok : Webhooks.timingSafeEqual a b = Except.ok (a == b) := by
      unfold Webhooks.timingSafeEqual
      rw [if_pos hlen]
    constructor
    · intro hfalse
      rw [hok] at hfalse
      simp [Except.isOk, Except.toBool] at hfalse
    · intro hne
      exact absurd hlen hne
  · have herr : Webhooks.timingSafeEqual a b = Except.error () := by
      unfold Webhooks.timingSafeEqual
      rw [if_neg hlen]
    have hsc : Webhooks.secureCompare a b = false := by
      unfold Webhooks.secureCompare
      rw [herr]
    exact ⟨fun _ => hsc, fun _ => hsc⟩

/-- C7, witness on inputs of different lengths. -/
theorem C7_witness : Webhooks.secureCompare ['a'] ['a', 'b'] = false :=
  (C7_prop ['a'] ['a', 'b']).2 (by decide)

/-- C9: `verifySignature` is `true` exactly when the parse, freshness and
signature-match stages succeed, i.e. exactly when `constructEvent` either
succeeds or fails only at payload decoding; every other failure makes
`verifySignature` return `false` (it never throws). -/
theorem C9_prop (hmac : Str → Str → Str) (jsonOk : Str → Bool)
    (payload signature secret : Str) (tolerance now : Int) :
    Webhooks.verifySignature hmac payload signature secret tolerance now =
        true ↔
      (Webhooks.constructEvent hmac jsonOk payload signature secret tolerance
          now = Except.ok payload ∨
       Webhooks.constructEvent hmac jsonOk payload signature secret tolerance
          now = Except.error Webhooks.VerifyError.payloadDecode) := by
  cases hp : Webhooks.parseHeader signature with
  | error e =>
    rw [Webhooks.verifySignature_parse_error hp,
      Webhooks.constructEvent_parse_error hp]
    rcases Webhooks.parseHeader_error_cases hp with rfl | rfl | rfl <;> simp
  | ok h =>
    rw [Webhooks.verifySignature_parse_ok hp,
      Webhooks.constructEvent_parse_ok hp]
    by_cases hstale : now - h.timestamp > tolerance
    · rw [if_pos hstale, if_pos hstale]
      simp
    · rw [if_neg hstale, if_neg hstale]
      by_cases hm : h.signatures.any (fun s => Webhooks.optSecureCompare s
          (Webhooks.computeSignature hmac h.timestamp payload secret)) = true
      · rw [if_pos hm]
        by_cases hj : jsonOk payload = true
        · rw [if_pos hj]
          simp [hm]
        · rw [if_neg hj]
          simp [hm]
      · rw [if_neg hm]
        simp [hm]

/-- C10: a header timestamp at or after `now` passes the freshness check
for every non-negative tolerance — `constructEvent` never reports
staleness there, and `verifySignature` reduces to the signature-match
stage. -/
theorem C10_prop (hmac : Str → Str → Str) (jsonOk : Str → Bool)
    (payload signature secret : Str) (tolerance now : Int)
    (h : Webhooks.WebhookHeader)
    (hp : Webhooks.parseHeader signature = Except.ok h)
    (hfut : now ≤ h.timestamp) (htol : 0 ≤ tolerance) :
    Webhooks.constructEvent hmac jsonOk payload signature secret tolerance now
        ≠ Except.error Webhooks.VerifyError.stale ∧
    Webhooks.verifySignature hmac payload signature secret tolerance now =
      h.signatures.any (fun s => Webhooks.optSecureCompare s
        (Webhooks.computeSignature hmac h.timestamp payload secret)) := by
  have hns : ¬ now - h.timestamp > tolerance := by omega
  rw [Webhooks.constructEvent_parse_ok hp, Webhooks.verifySignature_parse_ok hp,
    if_neg hns, if_neg hns]
  refine ⟨?_, rfl⟩
  by_cases hm : h.signatures.any (fun s => Webhooks.optSecureCompare s
      (Webhooks.computeSignature hmac h.timestamp payload secret)) = true
  · rw [if_pos hm]
    by_cases hj : jsonOk payload = true
    · rw [if_pos hj]
      simp
    · rw [if_neg hj]
      simp
  · rw [if_neg hm]
    simp

/-- C10, witness: a header timestamp 9 six seconds in the future of
`now = 3`, with tolerance 0. -/
theorem C10_witness :
    Webhooks.constructEvent hmacAB jsonOkAll ['p']
        ['t', '=', '9', ',', 'v', '1', '=', 'a', 'b'] ['s'] 0 3
        ≠ Except.error Webhooks.VerifyError.stale ∧
    Webhooks.verifySignature hmacAB ['p']
        ['t', '=', '9', ',', 'v', '1', '=', 'a', 'b'] ['s'] 0 3 =
      (Webhooks.WebhookHeader.mk 9 [some ['a', 'b']]).signatures.any
        (fun s => Webhooks.optSecureCompare s
          (Webhooks.computeSignature hmacAB
            (Webhooks.WebhookHeader.mk 9 [some ['a', 'b']]).timestamp
            ['p'] ['s'])) :=
  C10_prop hmacAB jsonOkAll ['p'] _ ['s'] 0 3 ⟨9, [some ['a', 'b']]⟩
    (by decide) (by decide) (by decide)

/-- C3, counterexample: with every attempt answered 503 and
`maxNetworkRetries = 2`, three attempts occur but the terminal error is
`ACPAPIError` (status 503), which is not an `ACPConnectionError` as the
claim states. -/
theorem C3_counterexample :
    (FetchHttpClient.makeRequest resp503All jitZero genIdNum none 2).1.length
        = 3 ∧
    (FetchHttpClient.makeRequest resp503All jitZero genIdNum none 2).2.2 =
      Except.error (FetchHttpClient.ReqErr.apiError 503) ∧
    FetchHttpClient.ReqErr.isConnectionErr
        (FetchHttpClient.ReqErr.apiError 503) = false :=
  ⟨by decide, by decide, by decide⟩

/-- C3 (amended): if every physical attempt of one `makeRequest` call
receives a 503 response and the effective `maxNetworkRetries` is 2, then
exactly 3 physical attempts occur (with 2 backoff sleeps) and an
**API error** (`ACPAPIError`, status 503) is raised as the terminal
outcome. -/
theorem C3_prop (resp : Nat → FetchHttpClient.FetchResult)
    (jit : Nat → ℚ) (genId : Nat → Str) (idem : Option Str)
    (h : ∀ i, ∃ ra body, resp i =
      FetchHttpClient.FetchResult.response 503 ra body) :
    (FetchHttpClient.makeRequest resp jit genId idem 2).1.length = 3 ∧
    (FetchHttpClient.makeRequest resp jit genId idem 2).2.1.length = 2 ∧
    (FetchHttpClient.makeRequest resp jit genId idem 2).2.2 =
      Except.error (FetchHttpClient.ReqErr.apiError 503) := by
  obtain ⟨ra0, b0, h0⟩ := h 0
  obtain ⟨ra1, b1, h1⟩ := h 1
  obtain ⟨ra2, b2, h2⟩ := h 2
  unfold FetchHttpClient.makeRequest
  rw [FetchHttpClient.runFrom_other_retry h0 (by omega) (by omega) (by omega),
    FetchHttpClient.runFrom_other_retry h1 (by omega) (by omega) (by omega),
    FetchHttpClient.runFrom_other_exhaust h2 (by omega) (by omega) (by omega)]
  exact ⟨rfl, rfl, rfl⟩

/-- C3, witness for the amended theorem on the constant-503 responder. -/
theorem C3_witness :
    (FetchHttpClient.makeRequest resp503All jitZero genIdNum none 2).1.length
        = 3 ∧
    (FetchHttpClient.makeRequest resp503All jitZero genIdNum none 2).2.1.length
        = 2 ∧
    (FetchHttpClient.makeRequest resp503All jitZero genIdNum none 2).2.2 =
      Except.error (FetchHttpClient.ReqErr.apiError 503) :=
  C3_prop resp503All jitZero genIdNum none
    (fun _ => ⟨none, [], rfl⟩)

/-- C4: a response with status in `[400, 500)` other than 429 ends the
call on the attempt that received it — one attempt record, no sleeps, and
the classified error — regardless of the remaining retry budget. -/
theorem C4_prop (resp : Nat → FetchHttpClient.FetchResult)
    (jit : Nat → ℚ) (genId : Nat → Str) (idem : Option Str)
    (attempt budget st : Nat) (ra : Option Str) (body : Str)
    (hresp : resp attempt = FetchHttpClient.FetchResult.response st ra body)
    (h1 : 400 ≤ st) (h2 : st < 500) (h3 : st ≠ 429) :
    FetchHttpClient.runFrom resp jit genId idem attempt budget =
      ([⟨genId attempt, idem⟩], [],
        Except.error (FetchHttpClient.generateErr st)) := by
  have hno2 : ¬(200 ≤ st ∧ st < 300) := by omega
  cases budget with
  | zero =>
    simp only [FetchHttpClient.runFrom, hresp]
    rw [if_neg hno2, if_pos ⟨h1, h2, h3⟩]
  | succ b =>
    simp only [FetchHttpClient.runFrom, hresp]
    rw [if_neg hno2, if_pos ⟨h1, h2, h3⟩]

/-- C4, witness: a 400 response received with 7 retries still in budget
terminates immediately with `ACPInvalidRequestError`. -/
theorem C4_witness :
    FetchHttpClient.runFrom resp400All jitZero genIdNum none 0 7 =
      ([⟨genIdNum 0, none⟩], [],
        Except.error (FetchHttpClient.generateErr 400)) :=
  C4_prop resp400All jitZero genIdNum none 0 7 400 none [] rfl
    (by decide) (by decide) (by decide)

/-- C5: on a 429 response whose `Retry-After` header parses to `v`
seconds (absent defaults to 1), a remaining budget (`attempt <
maxRetries`) sleeps exactly `v * 1000` milliseconds before the next
attempt, while an exhausted budget (`attempt = maxRetries`) raises the
rate-limit error after that single attempt. -/
theorem C5_prop (resp : Nat → FetchHttpClient.FetchResult)
    (jit : Nat → ℚ) (genId : Nat → Str) (idem : Option Str)
    (attempt b : Nat) (ra : Option Str) (body : Str) (v : Int)
    (hresp : resp attempt = FetchHttpClient.FetchResult.response 429 ra body)
    (hv : FetchHttpClient.retryAfterSecs ra = some v) :
    (FetchHttpClient.runFrom resp jit genId idem attempt (b + 1)).2.1 =
      (v : ℚ) * 1000 ::
        (FetchHttpClient.runFrom resp jit genId idem (attempt + 1) b).2.1 ∧
    (FetchHttpClient.runFrom resp jit genId idem attempt (b + 1)).1 =
      ⟨genId attempt, idem⟩ ::
        (FetchHttpClient.runFrom resp jit genId idem (attempt + 1) b).1 ∧
    FetchHttpClient.runFrom resp jit genId idem attempt 0 =
      ([⟨genId attempt, idem⟩], [],
        Except.error FetchHttpClient.ReqErr.rateLimitE) ∧
    FetchHttpClient.retryAfterSecs none = some 1 := by
  have hno2 : ¬((200 : Nat) ≤ 429 ∧ (429 : Nat) < 300) := by omega
  have hno4 : ¬((400 : Nat) ≤ 429 ∧ (429 : Nat) < 500 ∧ (429 : Nat) ≠ 429) :=
    fun hc => hc.2.2 rfl
  have hms : FetchHttpClient.retryAfterMs ra = (v : ℚ) * 1000 := by
    unfold FetchHttpClient.retryAfterMs
    rw [hv]
  refine ⟨?_, ?_, ?_, rfl⟩
  · simp [FetchHttpClient.runFrom, hresp, hms]
  · simp [FetchHttpClient.runFrom, hresp]
  · simp [FetchHttpClient.runFrom, hresp]

/-- C5, witness: `Retry-After: 2` produces a 2000 ms sleep when budget
remains, and the rate-limit error when it does not. -/
theorem C5_witness :
    (FetchHttpClient.runFrom resp429All jitZero genIdNum none 0 1).2.1 =
      ((2 : Int) : ℚ) * 1000 ::
        (FetchHttpClient.runFrom resp429All jitZero genIdNum none 1 0).2.1 ∧
    (FetchHttpClient.runFrom resp429All jitZero genIdNum none 0 1).1 =
      ⟨genIdNum 0, none⟩ ::
        (FetchHttpClient.runFrom resp429All jitZero genIdNum none 1 0).1 ∧
    FetchHttpClient.runFrom resp429All jitZero genIdNum none 0 0 =
      ([⟨genIdNum 0, none⟩], [],
        Except.error FetchHttpClient.ReqErr.rateLimitE) ∧
    FetchHttpClient.retryAfterSecs none = some 1 :=
  C5_prop resp429All jitZero genIdNum none 0 0 (some ['2']) [] 2 rfl
    (by decide)

/-- C8: within one `makeRequest` call the idempotency key header is the
caller's key on every physical attempt, while the request identifier of
attempt `k` is the `k`-th output of the generator — fresh per attempt and
(for an injective generator, as one producing distinct identifiers)
never reused across attempts. -/
theorem C8_prop (resp : Nat → FetchHttpClient.FetchResult)
    (jit : Nat → ℚ) (genId : Nat → Str) (idem : Option Str)
    (maxRetries : Nat) (hinj : Function.Injective genId) :
    (∀ r ∈ (FetchHttpClient.makeRequest resp jit genId idem maxRetries).1,
      r.idem = idem) ∧
    (FetchHttpClient.makeRequest resp jit genId idem maxRetries).1.map
        FetchHttpClient.AttemptRecord.reqId =
      (List.range
        (FetchHttpClient.makeRequest resp jit genId idem maxRetries).1.length
        ).map genId ∧
    ((FetchHttpClient.makeRequest resp jit genId idem maxRetries).1.map
        FetchHttpClient.AttemptRecord.reqId).Nodup := by
  obtain ⟨n, hn, hrec⟩ :=
    FetchHttpClient.runFrom_records resp jit genId idem maxRetries 0
  unfold FetchHttpClient.makeRequest
  rw [hrec]
  refine ⟨?_, ?_, ?_⟩
  · intro r hr
    obtain ⟨k, _, rfl⟩ := List.mem_map.mp hr
    rfl
  · rw [List.map_map, List.length_map, List.length_range' 0 1 n,
      List.range_eq_range' n]
    rfl
  · rw [List.map_map]
    exact (List.nodup_range' 0 n).map (fun a b hab => hinj hab)

/-- C8, witness: two 503-driven attempts with a supplied idempotency key
and the decimal request-identifier generator. -/
theorem C8_witness :
    (∀ r ∈ (FetchHttpClient.makeRequest resp503All jitZero genIdNum
        (some ['k']) 1).1, r.idem = some ['k']) ∧
    (FetchHttpClient.makeRequest resp503All jitZero genIdNum
        (some ['k']) 1).1.map FetchHttpClient.AttemptRecord.reqId =
      (List.range (FetchHttpClient.makeRequest resp503All jitZero genIdNum
        (some ['k']) 1).1.length).map genIdNum ∧
    ((FetchHttpClient.makeRequest resp503All jitZero genIdNum
        (some ['k']) 1).1.map FetchHttpClient.AttemptRecord.reqId).Nodup :=
  C8_prop resp503All jitZero genIdNum (some ['k']) 1 genIdNum_injective
